import Mathlib

/-!
Shallow embedding of the script-validation and execution core of the
macOS ecosystem MCP server (src/executor/validator.ts, src/executor/index.ts,
src/executor/types.ts, src/shared/utils.ts, src/shared/errors.ts,
src/apps/notes/scripts.ts).

Strings are modelled as Lean `String` (list of characters); the JavaScript
string operations used by the source (`trim`, `toLowerCase`, `includes`,
`replace` with a single-character global pattern, template literals) are
modelled explicitly below.  The two regular expressions of the validator
are deterministic (every quantified class is disjoint from the literal that
follows it), so they are embedded as straight-line scanners.
-/

namespace MacOSMCP

/-- Whitespace class of JavaScript regular expressions and `String.trim`,
restricted to the characters that can actually occur here (ASCII whitespace
plus no-break space). -/
def isJsSpace (c : Char) : Bool :=
  c = ' ' || c = '\t' || c = '\n' || c = '\r' || c = '\x0b' || c = '\x0c' || c = ' '

/-- JavaScript `String.prototype.trim` on a character list. -/
def jsTrimList (l : List Char) : List Char :=
  ((l.dropWhile isJsSpace).reverse.dropWhile isJsSpace).reverse

/-- JavaScript `String.prototype.trim`. -/
def jsTrim (s : String) : String :=
  ⟨jsTrimList s.data⟩

/-- JavaScript `String.prototype.toLowerCase` (ASCII range, which covers
every pattern and application name in the policy tables). -/
def jsLower (s : String) : String :=
  ⟨s.data.map Char.toLower⟩

/-- Helper for `strIncludes`: does `needle` occur contiguously in the list? -/
def inclAux (needle : List Char) : List Char → Bool
  | [] => needle.isEmpty
  | c :: t => needle.isPrefixOf (c :: t) || inclAux needle t

/-- JavaScript `hay.includes(needle)`. -/
def strIncludes (hay needle : String) : Bool :=
  inclAux needle.data hay.data

/-- JavaScript `s.replace(/c/g, rep)` for a single-character pattern `c`
and a replacement with no special sequences. -/
def jsReplaceChar (c : Char) (rep : List Char) (s : String) : String :=
  ⟨s.data.flatMap fun x => if x = c then rep else [x]⟩

/-! Policy tables from src/executor/types.ts. -/

/-- ALLOWED_APPS from src/executor/types.ts. -/
def ALLOWED_APPS : List String :=
  ["Reminders", "Calendar", "Notes", "Mail", "Messages", "Safari",
   "Music", "Photos", "Shortcuts", "Contacts", "Finder"]

/-- FORBIDDEN_PATTERNS from src/executor/types.ts, in declaration order. -/
def FORBIDDEN_PATTERNS : List String :=
  ["do shell script", "sudo", "rm -rf", "delete file", "delete folder",
   "System Events", "keystroke", "key code", "administrator privileges",
   "with administrator", "curl", "wget", "python", "ruby", "perl",
   "bash", "zsh", "sh -c"]

/-! Validator (src/executor/validator.ts). -/

/-- `maxLength` constant of `validateScript`. -/
def maxLength : Nat := 50000

/-- `isAllowedApp`: membership of the declared app in ALLOWED_APPS. -/
def isAllowedApp (app : String) : Bool :=
  ALLOWED_APPS.contains app

/-- The literal `tell` of the tell-pattern regex, lowercase. -/
def tellChars : List Char := ['t', 'e', 'l', 'l']

/-- The literal `application` of the tell-pattern regex, lowercase. -/
def applicationChars : List Char :=
  ['a', 'p', 'p', 'l', 'i', 'c', 'a', 't', 'i', 'o', 'n']

/-- The character class `["']` of the tell-pattern regex. -/
def isQuoteCh (c : Char) : Bool :=
  c = '"' || c = '\x27'

/-- Case-insensitive literal matching: strip `pat` (given lowercase) off the
head of the input, returning the remainder. -/
def stripCI : List Char → List Char → Option (List Char)
  | [], l => some l
  | _ :: _, [] => none
  | p :: ps, c :: cs => if c.toLower = p.toLower then stripCI ps cs else none

/-- `\s+`: one mandatory whitespace character followed by the maximal run
(the literal after each `\s+` in the source regexes is never whitespace,
so the greedy match is deterministic). -/
def stripWs1 : List Char → Option (List Char)
  | [] => none
  | c :: cs => if isJsSpace c then some (cs.dropWhile isJsSpace) else none

/-- `([^"']+)["']`: the capture group of the tell-pattern regex followed by
its closing quote; returns the capture and the remainder after the quote. -/
def takeCapture (l : List Char) : Option (List Char × List Char) :=
  let cap := l.takeWhile fun c => !isQuoteCh c
  let rest := l.dropWhile fun c => !isQuoteCh c
  if cap.isEmpty then none
  else
    match rest with
    | [] => none
    | c :: cs => if isQuoteCh c then some (cap, cs) else none

/-- One attempt of the regex `tell\s+application\s+["']([^"']+)["']` at the
head of the input; on success returns the capture and the remainder after
the whole match. -/
def matchTellAt (l : List Char) : Option (List Char × List Char) :=
  (stripCI tellChars l).bind fun l1 =>
  (stripWs1 l1).bind fun l2 =>
  (stripCI applicationChars l2).bind fun l3 =>
  (stripWs1 l3).bind fun l4 =>
  match l4 with
  | [] => none
  | c :: cs => if isQuoteCh c then takeCapture cs else none

theorem stripCI_length_le :
    ∀ (pat l l' : List Char), stripCI pat l = some l' → l'.length ≤ l.length := by
  intro pat
  induction pat with
  | nil =>
    intro l l' h
    simp [stripCI] at h
    simp [h]
  | cons p ps ih =>
    intro l l' h
    cases l with
    | nil => simp [stripCI] at h
    | cons c cs =>
      simp only [stripCI] at h
      split at h
      · exact Nat.le_trans (ih cs l' h) (Nat.le_succ _)
      · exact absurd h (by simp)

theorem stripCI_cons_length_lt :
    ∀ (p : Char) (ps l l' : List Char),
      stripCI (p :: ps) l = some l' → l'.length < l.length := by
  intro p ps l l' h
  cases l with
  | nil => simp [stripCI] at h
  | cons c cs =>
    simp only [stripCI] at h
    split at h
    · exact Nat.lt_succ_of_le (stripCI_length_le ps cs l' h)
    · exact absurd h (by simp)

theorem stripWs1_length_lt :
    ∀ (l l' : List Char), stripWs1 l = some l' → l'.length < l.length := by
  intro l l' h
  cases l with
  | nil => simp [stripWs1] at h
  | cons c cs =>
    simp only [stripWs1] at h
    split at h
    · cases h
      exact Nat.lt_succ_of_le ((List.dropWhile_sublist _).length_le)
    · exact absurd h (by simp)

theorem takeCapture_length_lt :
    ∀ (l cap rest : List Char),
      takeCapture l = some (cap, rest) → rest.length < l.length := by
  intro l cap rest h
  simp only [takeCapture] at h
  split at h
  · exact absurd h (by simp)
  · split at h
    · exact absurd h (by simp)
    · rename_i heq
      split at h
      · cases h
        have hsub : (List.dropWhile (fun c => !isQuoteCh c) l).length ≤ l.length :=
          (List.dropWhile_sublist _).length_le
        rw [heq] at hsub
        exact Nat.lt_of_lt_of_le (Nat.lt_succ_self _) hsub
      · exact absurd h (by simp)

theorem matchTellAt_length_lt :
    ∀ (l cap rest : List Char),
      matchTellAt l = some (cap, rest) → rest.length < l.length := by
  intro l cap rest h
  simp only [matchTellAt] at h
  cases h1 : stripCI tellChars l with
  | none => rw [h1] at h; exact absurd h (by simp)
  | some l1 =>
    rw [h1] at h
    simp only [Option.some_bind] at h
    cases h2 : stripWs1 l1 with
    | none => rw [h2] at h; exact absurd h (by simp)
    | some l2 =>
      rw [h2] at h
      simp only [Option.some_bind] at h
      cases h3 : stripCI applicationChars l2 with
      | none => rw [h3] at h; exact absurd h (by simp)
      | some l3 =>
        rw [h3] at h
        simp only [Option.some_bind] at h
        cases h4 : stripWs1 l3 with
        | none => rw [h4] at h; exact absurd h (by simp)
        | some l4 =>
          rw [h4] at h
          simp only [Option.some_bind] at h
          cases l4 with
          | nil => exact absurd h (by simp)
          | cons c cs =>
            dsimp only at h
            split at h
            · have h5 := takeCapture_length_lt cs cap rest h
              have : rest.length < l3.length :=
                Nat.lt_trans (Nat.lt_trans h5 (Nat.lt_succ_self _))
                  (stripWs1_length_lt l3 (c :: cs) h4)
              have h6 : l3.length ≤ l2.length := stripCI_length_le _ _ _ h3
              have h7 : l2.length < l1.length := stripWs1_length_lt l1 l2 h2
              have h8 : l1.length < l.length :=
                stripCI_cons_length_lt _ _ _ _ h1
              omega
            · exact absurd h (by simp)

/-- Fuel-indexed scan of `script.matchAll(tellPattern)`: at each position try
the pattern; on a match record the capture and resume after the match,
otherwise advance one character (the `g`-flag scan of `matchAll`).  Each step
consumes at least one character (`matchTellAt_length_lt`), so any fuel of at
least the input length gives the unbounded scan (`tellCapturesAux_congr`). -/
def tellCapturesAux : Nat → List Char → List (List Char)
  | 0, _ => []
  | _ + 1, [] => []
  | fuel + 1, c :: cs =>
    match matchTellAt (c :: cs) with
    | some (cap, rest) => cap :: tellCapturesAux fuel rest
    | none => tellCapturesAux fuel cs

theorem tellCapturesAux_congr :
    ∀ (fuel fuel' : Nat) (l : List Char),
      l.length ≤ fuel → l.length ≤ fuel' →
      tellCapturesAux fuel l = tellCapturesAux fuel' l := by
  intro fuel
  induction fuel with
  | zero =>
    intro fuel' l h1 _
    have hl : l = [] := List.length_eq_zero.mp (Nat.le_zero.mp h1)
    subst hl
    cases fuel' <;> rfl
  | succ n ih =>
    intro fuel' l h1 h2
    cases l with
    | nil => cases fuel' <;> rfl
    | cons c cs =>
      cases fuel' with
      | zero => simp at h2
      | succ m =>
        simp only [tellCapturesAux]
        cases h : matchTellAt (c :: cs) with
        | none =>
          have hc : cs.length ≤ n := by simp at h1; omega
          have hc' : cs.length ≤ m := by simp at h2; omega
          exact ih m cs hc hc'
        | some pr =>
          obtain ⟨cap, rest⟩ := pr
          have hlt := matchTellAt_length_lt (c :: cs) cap rest h
          have hr : rest.length ≤ n := by simp at h1 hlt; omega
          have hr' : rest.length ≤ m := by simp at h2 hlt; omega
          exact congrArg (fun x => cap :: x) (ih m rest hr hr')

/-- All captures of `script.matchAll(tellPattern)` in order. -/
def tellCaptures (l : List Char) : List (List Char) :=
  tellCapturesAux l.length l

/-- `scriptTargetsApp` from src/executor/validator.ts: some capture of the
tell-pattern equals the declared app, case-insensitively (the truthiness
guard on the capture is kept from the source; captures are never empty). -/
def scriptTargetsApp (script targetApp : String) : Bool :=
  (tellCaptures script.data).any fun cap =>
    !cap.isEmpty && cap.map Char.toLower == targetApp.data.map Char.toLower

/-- `startsWithTellApplication` from src/executor/validator.ts: the regex
`^tell\s+application\s+["']` tested against the trimmed script. -/
def startsWithTellApplication (script : String) : Bool :=
  match stripCI tellChars (jsTrimList script.data) with
  | none => false
  | some l1 =>
    match stripWs1 l1 with
    | none => false
    | some l2 =>
      match stripCI applicationChars l2 with
      | none => false
      | some l3 =>
        match stripWs1 l3 with
        | none => false
        | some l4 =>
          match l4 with
          | [] => false
          | c :: _ => isQuoteCh c

/-- `findForbiddenPattern` from src/executor/validator.ts: first member of
FORBIDDEN_PATTERNS occurring in the lowercased script. -/
def findForbiddenPattern (script : String) : Option String :=
  FORBIDDEN_PATTERNS.find? fun pat => strIncludes (jsLower script) (jsLower pat)

/-- `sanitizeForAppleScript` from src/executor/validator.ts:
backslash, then quote, then newline. -/
def sanitizeForAppleScript (input : String) : String :=
  jsReplaceChar '\n' ['\\', 'n']
    (jsReplaceChar '"' ['\\', '"']
      (jsReplaceChar '\\' ['\\', '\\'] input))

/-- `escapeAppleScriptString` from src/shared/utils.ts:
backslash, then quote (no newline escaping). -/
def escapeAppleScriptString (input : String) : String :=
  jsReplaceChar '"' ['\\', '"']
    (jsReplaceChar '\\' ['\\', '\\'] input)

/-- Reason component of a SecurityError thrown by `validateScript`; the
constructor and its argument determine the message (see
`SecurityReason.message`). -/
inductive SecurityReason where
  | emptyScript
  | tooLong (actualLength : Nat)
  | appNotAllowed (app : String)
  | appMismatch (app : String)
  | forbiddenMatch (pat : String)
  | missingTellStart
deriving DecidableEq, Repr

instance exceptDecEq {ε α : Type} [DecidableEq ε] [DecidableEq α] :
    DecidableEq (Except ε α) := fun x y =>
  match x, y with
  | .ok a, .ok b =>
      if h : a = b then isTrue (by rw [h]) else isFalse (by simp [h])
  | .ok _, .error _ => isFalse (by simp)
  | .error _, .ok _ => isFalse (by simp)
  | .error e, .error f =>
      if h : e = f then isTrue (by rw [h]) else isFalse (by simp [h])

/-- The exact message string of each SecurityError of src/executor/validator.ts. -/
def SecurityReason.message : SecurityReason → String
  | .emptyScript => "Script cannot be empty"
  | .tooLong _ => "Script exceeds maximum length of 50000 characters"
  | .appNotAllowed app => "Application \"" ++ app ++ "\" is not in the allowed list"
  | .appMismatch app =>
      "Script does not target the declared application \"" ++ app ++ "\""
  | .forbiddenMatch pat => "Script contains forbidden pattern: \"" ++ pat ++ "\""
  | .missingTellStart => "Script must start with \"tell application\" statement"

/-- `validateScript` from src/executor/validator.ts: the six layers in source
order, throwing (here: returning `.error`) on the first failure. -/
def validateScript (script targetApp : String) : Except SecurityReason Unit :=
  if jsTrimList script.data = [] then .error .emptyScript
  else if script.length > maxLength then .error (.tooLong script.length)
  else if !isAllowedApp targetApp then .error (.appNotAllowed targetApp)
  else if !scriptTargetsApp script targetApp then .error (.appMismatch targetApp)
  else
    match findForbiddenPattern script with
    | some pat => .error (.forbiddenMatch pat)
    | none =>
      if !startsWithTellApplication script then .error .missingTellStart
      else .ok ()

/-! Execution wrapper (src/executor/index.ts) and error model
(src/shared/errors.ts).  The asynchronous engine call `runAppleScript`
raced against the timer is modelled as an oracle outcome: it either
settles with output, settles with an error message, or fails to settle
within the deadline (in which case the race rejects with the timeout
message passed to `timeout` in src/shared/utils.ts). -/

/-- Outcome of the raced engine invocation for one call. -/
inductive EngineOutcome where
  | success (output : String)
  | failure (message : String)
  | timedOut
deriving DecidableEq, Repr

/-- `ExecutionContext` from src/executor/types.ts. -/
structure ExecutionContext where
  script : String
  app : String
  operation : String
  timeout : Option Nat := none
  skipValidation : Bool := false

/-- The closed error taxonomy of src/shared/errors.ts, restricted to the
kinds `executeScript` can produce; each constructor carries the data its
class stores. -/
inductive MCPError where
  | security (reason : SecurityReason)
  | permission (app : String)
  | appNotFound (app : String)
  | executionTimeout (timeoutMs : Nat)
  | scriptExecution (message : String)
deriving DecidableEq, Repr

/-- `DEFAULT_TIMEOUT` from src/executor/index.ts. -/
def DEFAULT_TIMEOUT : Nat := 30000

/-- `permissionKeywords` of `isPermissionError` in src/shared/errors.ts. -/
def permissionKeywords : List String :=
  ["not allowed", "authorization", "not authorized", "permission denied",
   "access denied", "not permitted"]

/-- `isPermissionError` from src/shared/errors.ts. -/
def isPermissionError (errorMessage : String) : Bool :=
  permissionKeywords.any fun k => strIncludes (jsLower errorMessage) k

/-- `notFoundKeywords` of `isAppNotFoundError` in src/shared/errors.ts. -/
def notFoundKeywords : List String :=
  ["application isn\x27t running", "application is not running",
   "can\x27t get application", "no application"]

/-- `isAppNotFoundError` from src/shared/errors.ts. -/
def isAppNotFoundError (errorMessage : String) : Bool :=
  notFoundKeywords.any fun k => strIncludes (jsLower errorMessage) k

/-- The message the `timeout` helper (src/shared/utils.ts) rejects with,
as supplied by `executeScript`. -/
def timeoutRaceMessage (scriptTimeout : Nat) : String :=
  "Script execution timed out after " ++ toString scriptTimeout ++ "ms"

/-- The catch-block of `executeScript` for a non-`MacOSMCPError` rejection:
classify the message into timeout, permission, app-not-found or generic
execution failure, in source order. -/
def classifyFailure (app : String) (scriptTimeout : Nat) (msg : String) : MCPError :=
  if strIncludes msg "timed out" || strIncludes msg "Timeout" then
    .executionTimeout scriptTimeout
  else if isPermissionError msg then .permission app
  else if isAppNotFoundError msg then .appNotFound app
  else .scriptExecution msg

/-- The raced engine call of `executeScript` after validation has passed
(or been skipped): success returns the output; the race rejecting on the
deadline yields the timeout message; an engine rejection yields its own
message; either rejection is classified by the catch block. -/
def runRacedEngine (app : String) (scriptTimeout : Nat) :
    EngineOutcome → Except MCPError String
  | .success out => .ok out
  | .timedOut => .error (classifyFailure app scriptTimeout (timeoutRaceMessage scriptTimeout))
  | .failure msg => .error (classifyFailure app scriptTimeout msg)

/-- `executeScript` from src/executor/index.ts: unless `skipValidation` is
set, run `validateScript` first; a SecurityError is a `MacOSMCPError`, so
the catch block re-throws it unchanged.  Otherwise run the engine raced
against the timer. -/
def executeScript (ctx : ExecutionContext) (engine : EngineOutcome) :
    Except MCPError String :=
  let scriptTimeout := ctx.timeout.getD DEFAULT_TIMEOUT
  if ctx.skipValidation then
    runRacedEngine ctx.app scriptTimeout engine
  else
    match validateScript ctx.script ctx.app with
    | .error r => .error (.security r)
    | .ok () => runRacedEngine ctx.app scriptTimeout engine

/-- The probe script of `isAppRunning` (src/executor/index.ts): the trimmed
template literal targeting System Events. -/
def isAppRunningScript (appName : String) : String :=
  jsTrim ("\ntell application \"System Events\"\n  return (name of processes) contains \""
    ++ appName ++ "\"\nend tell\n  ")

/-- `isAppRunning` from src/executor/index.ts: executes the probe with
`skipValidation: true` and a 5000 ms timeout; compares the trimmed output
with "true"; any caught failure yields `false`. -/
def isAppRunning (appName : String) (engine : EngineOutcome) : Bool :=
  match executeScript
      { script := isAppRunningScript appName, app := "System Events",
        operation := "check_running", timeout := some 5000,
        skipValidation := true } engine with
  | .ok result => jsTrim result == "true"
  | .error _ => false

/-! Notes template generator (src/apps/notes/scripts.ts) and the priority
codec (src/shared/utils.ts). -/

/-- `CreateNoteParams` fields used by `generateCreateNoteScript`. -/
structure CreateNoteParams where
  title : String
  body : String
  folder : String

/-- `generateCreateNoteScript` from src/apps/notes/scripts.ts: every field is
escaped with `escapeAppleScriptString` before interpolation. -/
def generateCreateNoteScript (params : CreateNoteParams) : String :=
  let sanitizedTitle := escapeAppleScriptString params.title
  let sanitizedBody := escapeAppleScriptString params.body
  let sanitizedFolder := escapeAppleScriptString params.folder
  let fullContent := "<h1>" ++ sanitizedTitle ++ "</h1><div>" ++ sanitizedBody ++ "</div>"
  jsTrim ("\ntell application \"Notes\"\n    set targetFolder to folder \""
    ++ sanitizedFolder
    ++ "\"\n    set newNote to make new note at targetFolder with properties \x7bbody:\""
    ++ fullContent
    ++ "\"\x7d\n    return id of newNote & \"|\" & name of newNote & \"|\" & name of targetFolder\nend tell\n  ")

/-- The four priority levels of the Reminders tools. -/
inductive Priority where
  | none
  | low
  | medium
  | high
deriving DecidableEq, Repr

/-- `priorityToAppleScript` from src/shared/utils.ts
(none: 0, low: 1, medium: 5, high: 9). -/
def priorityToAppleScript : Priority → Int
  | .none => 0
  | .low => 1
  | .medium => 5
  | .high => 9

/-- `appleScriptToPriority` from src/shared/utils.ts (threshold decoding). -/
def appleScriptToPriority (value : Int) : Priority :=
  if value ≥ 9 then .high
  else if value ≥ 5 then .medium
  else if value ≥ 1 then .low
  else .none

/-! Helper lemmas. -/

theorem isAllowedApp_iff (app : String) :
    isAllowedApp app = true ↔ app ∈ ALLOWED_APPS := by
  simp [isAllowedApp]

theorem inclAux_nil_needle : ∀ l : List Char, inclAux [] l = true := by
  intro l
  cases l <;> simp [inclAux, List.isPrefixOf]

theorem isPrefixOf_append_right (n a b : List Char)
    (h : n.isPrefixOf a = true) : n.isPrefixOf (a ++ b) = true := by
  induction n generalizing a with
  | nil => simp [List.isPrefixOf]
  | cons x xs ih =>
    cases a with
    | nil => simp [List.isPrefixOf] at h
    | cons y ys =>
      simp only [List.cons_append, List.isPrefixOf, Bool.and_eq_true] at h ⊢
      exact ⟨h.1, ih ys h.2⟩

theorem inclAux_append_right (n a b : List Char)
    (h : inclAux n a = true) : inclAux n (a ++ b) = true := by
  induction a with
  | nil =>
    simp only [inclAux, List.isEmpty_iff] at h
    subst h
    simpa using inclAux_nil_needle b
  | cons c cs ih =>
    simp only [inclAux, Bool.or_eq_true] at h
    rcases h with h | h
    · simp only [List.cons_append, inclAux, Bool.or_eq_true]
      exact Or.inl (isPrefixOf_append_right n (c :: cs) b h)
    · simp only [List.cons_append, inclAux, Bool.or_eq_true]
      exact Or.inr (ih h)

theorem strIncludes_append_right (a b pat : String)
    (h : strIncludes a pat = true) : strIncludes (a ++ b) pat = true := by
  simp only [strIncludes, String.data_append]
  exact inclAux_append_right pat.data a.data b.data h

theorem timeoutRaceMessage_includes_timed_out (t : Nat) :
    strIncludes (timeoutRaceMessage t) "timed out" = true := by
  have hbase : strIncludes "Script execution timed out after " "timed out" = true := by
    decide
  have h1 := strIncludes_append_right "Script execution timed out after "
    (toString t ++ "ms") "timed out" hbase
  simpa [timeoutRaceMessage, String.append_assoc] using h1

theorem classifyFailure_timeoutRaceMessage (app : String) (t : Nat) :
    classifyFailure app t (timeoutRaceMessage t) = .executionTimeout t := by
  simp [classifyFailure, timeoutRaceMessage_includes_timed_out t]

theorem validateScript_ok_allowed (script app : String)
    (h : validateScript script app = .ok ()) : isAllowedApp app = true := by
  simp only [validateScript] at h
  split at h
  · exact absurd h (by simp)
  · split at h
    · exact absurd h (by simp)
    · split at h
      · exact absurd h (by simp)
      · rename_i hallowed
        simpa using hallowed

/-- The single-pass per-character escaping that the spec describes for the
quote/backslash rule: backslash to double backslash, quote to
backslash-quote, everything else unchanged. -/
def specEscapeChar (c : Char) : List Char :=
  if c = '\\' then ['\\', '\\'] else if c = '"' then ['\\', '"'] else [c]

/-- The single-pass per-character escaping that the spec describes for
multi-line-capable fields: additionally each literal newline becomes the
two characters backslash-n. -/
def specSanitizeChar (c : Char) : List Char :=
  if c = '\\' then ['\\', '\\']
  else if c = '"' then ['\\', '"']
  else if c = '\n' then ['\\', 'n']
  else [c]

theorem escape_charwise (s : String) :
    escapeAppleScriptString s = ⟨s.data.flatMap specEscapeChar⟩ := by
  simp only [escapeAppleScriptString, jsReplaceChar]
  congr 1
  rw [List.flatMap_assoc]
  congr 1
  funext c
  by_cases hb : c = '\\'
  · subst hb; rfl
  · by_cases hq : c = '"'
    · subst hq; rfl
    · simp [specEscapeChar, hb, hq]

theorem sanitize_charwise (s : String) :
    sanitizeForAppleScript s = ⟨s.data.flatMap specSanitizeChar⟩ := by
  simp only [sanitizeForAppleScript, jsReplaceChar]
  congr 1
  rw [List.flatMap_assoc, List.flatMap_assoc]
  congr 1
  funext c
  by_cases hb : c = '\\'
  · subst hb; rfl
  · by_cases hq : c = '"'
    · subst hq; rfl
    · by_cases hn : c = '\n'
      · subst hn; rfl
      · simp [specSanitizeChar, hb, hq, hn]

/-- Normal form of the probe script of `isAppRunning`: the trim removes
exactly the leading newline and the trailing newline and indentation of the
template literal, for every interpolated application name. -/
theorem isAppRunningScript_eq (appName : String) :
    isAppRunningScript appName =
      ⟨("tell application \"System Events\"\n  return (name of processes) contains \"").data
        ++ appName.data ++ ("\"\nend tell").data⟩ := by
  simp only [isAppRunningScript, jsTrim, jsTrimList, String.data_append]
  congr 1
  rw [List.append_assoc]
  rw [List.dropWhile_append]
  have h1 : ("\ntell application \"System Events\"\n  return (name of processes) contains \"").data.dropWhile isJsSpace
      = ("tell application \"System Events\"\n  return (name of processes) contains \"").data := by
    decide
  rw [h1]
  have h2 : ("tell application \"System Events\"\n  return (name of processes) contains \"").data.isEmpty = false := by
    decide
  rw [h2]
  simp only [Bool.false_eq_true, if_false]
  rw [List.reverse_append, List.reverse_append, List.append_assoc]
  rw [List.dropWhile_append]
  have h3 : ("\"\nend tell\n  ").data.reverse.dropWhile isJsSpace
      = ("\"\nend tell").data.reverse := by
    decide
  rw [h3]
  have h4 : ("\"\nend tell").data.reverse.isEmpty = false := by decide
  rw [h4]
  simp only [Bool.false_eq_true, if_false]
  rw [List.reverse_append, List.reverse_append]
  simp [List.append_assoc]

/-- Reduction of `validateScript` past its first four layers. -/
theorem validateScript_past_four (script declaredApp : String)
    (h1 : jsTrimList script.data ≠ [])
    (h2 : script.length ≤ maxLength)
    (hA : isAllowedApp declaredApp = true)
    (h4 : scriptTargetsApp script declaredApp = true) :
    validateScript script declaredApp =
      match findForbiddenPattern script with
      | some pat => .error (.forbiddenMatch pat)
      | none =>
        if !startsWithTellApplication script then .error .missingTellStart
        else .ok () := by
  simp only [validateScript, if_neg h1, if_neg (Nat.not_lt.mpr h2), hA, h4,
    Bool.not_true, Bool.false_eq_true, if_false]

/-- C1: for a non-empty, within-length script whose declared app is
whitelisted and which contains a tell-clause naming the declared app, the
presence of any forbidden pattern (case-insensitively, anywhere) makes
`validateScript` reject with the forbidden-pattern reason, reporting the
first matching member of FORBIDDEN_PATTERNS in declaration order. -/
theorem validateScript_reports_first_forbidden (script declaredApp : String)
    (h1 : jsTrimList script.data ≠ [])
    (h2 : script.length ≤ maxLength)
    (h3 : declaredApp ∈ ALLOWED_APPS)
    (h4 : scriptTargetsApp script declaredApp = true)
    (h5 : ∃ q ∈ FORBIDDEN_PATTERNS, strIncludes (jsLower script) (jsLower q) = true) :
    ∃ p, findForbiddenPattern script = some p ∧
      validateScript script declaredApp = .error (.forbiddenMatch p) ∧
      strIncludes (jsLower script) (jsLower p) = true ∧
      ∃ pre post, FORBIDDEN_PATTERNS = pre ++ p :: post ∧
        ∀ q ∈ pre, strIncludes (jsLower script) (jsLower q) = false := by
  obtain ⟨q, hqmem, hqinc⟩ := h5
  have hsome : (FORBIDDEN_PATTERNS.find? fun pat =>
      strIncludes (jsLower script) (jsLower pat)).isSome := by
    rw [List.find?_isSome]
    exact ⟨q, hqmem, hqinc⟩
  obtain ⟨p, hp⟩ := Option.isSome_iff_exists.mp hsome
  have hfind : findForbiddenPattern script = some p := hp
  have hdecomp := List.find?_eq_some.mp hp
  obtain ⟨hpinc, pre, post, hsplit, hpre⟩ := hdecomp
  refine ⟨p, hfind, ?_, hpinc, pre, post, hsplit, ?_⟩
  · rw [validateScript_past_four script declaredApp h1 h2
      ((isAllowedApp_iff declaredApp).mpr h3) h4, hfind]
  · intro a ha
    have := hpre a ha
    simpa using this

/-- C1 witness: a correctly targeted Reminders script embedding
`do shell script "rm -rf /"` is rejected naming "do shell script", the
first matching pattern. -/
theorem validateScript_reports_first_forbidden_witness :
    ∃ p, findForbiddenPattern
        "tell application \"Reminders\"\ndo shell script \"rm -rf /\"\nend tell" = some p ∧
      validateScript
        "tell application \"Reminders\"\ndo shell script \"rm -rf /\"\nend tell" "Reminders" =
        .error (.forbiddenMatch p) ∧
      strIncludes (jsLower "tell application \"Reminders\"\ndo shell script \"rm -rf /\"\nend tell")
        (jsLower p) = true ∧
      ∃ pre post, FORBIDDEN_PATTERNS = pre ++ p :: post ∧
        ∀ q ∈ pre, strIncludes
          (jsLower "tell application \"Reminders\"\ndo shell script \"rm -rf /\"\nend tell")
          (jsLower q) = false :=
  validateScript_reports_first_forbidden _ _ (by decide) (by decide) (by decide)
    (by decide) ⟨"do shell script", by decide, by decide⟩

/-- C3: a non-empty, within-length script with a declared app outside
ALLOWED_APPS is rejected with the app-not-allowed reason, whatever the rest
of the script contains (the later layers never determine the outcome). -/
theorem validateScript_rejects_disallowed_app (script declaredApp : String)
    (h1 : jsTrimList script.data ≠ [])
    (h2 : script.length ≤ maxLength)
    (h3 : declaredApp ∉ ALLOWED_APPS) :
    validateScript script declaredApp = .error (.appNotAllowed declaredApp) := by
  have hA : isAllowedApp declaredApp = false :=
    Bool.eq_false_iff.mpr fun hT => h3 ((isAllowedApp_iff declaredApp).mp hT)
  simp only [validateScript, if_neg h1, if_neg (Nat.not_lt.mpr h2), hA,
    Bool.not_false, if_true]

/-- C3 witness: "Terminal" is not whitelisted; a script that also violates
the self-consistency, forbidden-pattern and structural-start layers still
comes back with the app-not-allowed reason. -/
theorem validateScript_rejects_disallowed_app_witness :
    validateScript "do shell script \"rm -rf /\"" "Terminal" =
      .error (.appNotAllowed "Terminal") :=
  validateScript_rejects_disallowed_app _ _ (by decide) (by decide) (by decide)

/-- C4: a non-empty, within-length script whose declared app is whitelisted
but which no tell-clause occurrence names (case-insensitively) is rejected
with the app-mismatch reason. -/
theorem validateScript_rejects_app_mismatch (script declaredApp : String)
    (h1 : jsTrimList script.data ≠ [])
    (h2 : script.length ≤ maxLength)
    (h3 : declaredApp ∈ ALLOWED_APPS)
    (h4 : scriptTargetsApp script declaredApp = false) :
    validateScript script declaredApp = .error (.appMismatch declaredApp) := by
  simp only [validateScript, if_neg h1, if_neg (Nat.not_lt.mpr h2),
    (isAllowedApp_iff declaredApp).mpr h3, Bool.not_true, Bool.false_eq_true,
    if_false, h4, Bool.not_false, if_true]

/-- C4 witness: declaredApp "Reminders" with a script whose only opening
clause names "Calendar" is rejected with the app-mismatch reason. -/
theorem validateScript_rejects_app_mismatch_witness :
    validateScript "tell application \"Calendar\"\nend tell" "Reminders" =
      .error (.appMismatch "Reminders") :=
  validateScript_rejects_app_mismatch _ _ (by decide) (by decide) (by decide)
    (by decide)

/-- C5 counterexample: the script "hello" (declared app "Reminders") has no
leading tell-application clause, yet `validateScript` rejects it with the
app-mismatch reason, not the structural-start reason: the structural-start
layer runs last, so it does not decide the outcome "regardless of the
script's other content". -/
theorem validateScript_structural_last_counterexample :
    startsWithTellApplication "hello" = false ∧
    validateScript "hello" "Reminders" = .error (.appMismatch "Reminders") ∧
    validateScript "hello" "Reminders" ≠ .error .missingTellStart :=
  ⟨by decide, by decide, by decide⟩

/-- C5 (amended): for a script that passes the first five layers (non-empty,
within length, whitelisted declared app, some tell-clause naming it, no
forbidden pattern) whose trimmed text does not begin with a
tell-application clause, `validateScript` rejects with the structural-start
reason. -/
theorem validateScript_missing_tell_start (script declaredApp : String)
    (h1 : jsTrimList script.data ≠ [])
    (h2 : script.length ≤ maxLength)
    (h3 : declaredApp ∈ ALLOWED_APPS)
    (h4 : scriptTargetsApp script declaredApp = true)
    (h5 : findForbiddenPattern script = none)
    (h6 : startsWithTellApplication script = false) :
    validateScript script declaredApp = .error .missingTellStart := by
  rw [validateScript_past_four script declaredApp h1 h2
    ((isAllowedApp_iff declaredApp).mpr h3) h4, h5]
  simp [h6]

/-- C5 witness: a script that targets Reminders mid-text but does not start
with the tell clause is rejected with the structural-start reason. -/
theorem validateScript_missing_tell_start_witness :
    validateScript "say hi\ntell application \"Reminders\" to beep" "Reminders" =
      .error .missingTellStart :=
  validateScript_missing_tell_start _ _ (by decide) (by decide) (by decide)
    (by decide) (by decide) (by decide)

/-- C2: when `skipValidation` is not set and the validator rejects,
`executeScript` returns exactly the validator's SecurityError (same reason,
hence same code and message), and the result is the same for every engine
outcome — the engine is never consulted for that call. -/
theorem executeScript_propagates_validation_rejection (ctx : ExecutionContext)
    (engine : EngineOutcome) (r : SecurityReason)
    (h1 : ctx.skipValidation = false)
    (h2 : validateScript ctx.script ctx.app = .error r) :
    executeScript ctx engine = .error (.security r) := by
  simp only [executeScript, h1, Bool.false_eq_true, if_false, h2]

/-- C2 witness: a mismatch rejection surfaces unchanged and identically for
a successful engine oracle. -/
theorem executeScript_propagates_validation_rejection_witness :
    validateScript "hello" "Reminders" = .error (.appMismatch "Reminders") ∧
    executeScript
      { script := "hello", app := "Reminders", operation := "op" }
      (.success "engine ran") = .error (.security (.appMismatch "Reminders")) :=
  ⟨by decide,
   executeScript_propagates_validation_rejection _ (.success "engine ran") _
     rfl (by decide)⟩

/-- C6: when the engine invocation does not settle within the deadline, the
caller receives an ExecutionTimeoutError carrying the effective timeout —
`ctx.timeout` when given, otherwise the 30000 ms default. -/
theorem executeScript_timeout_carries_configured (ctx : ExecutionContext)
    (h : ctx.skipValidation = true ∨ validateScript ctx.script ctx.app = .ok ()) :
    executeScript ctx .timedOut =
      .error (.executionTimeout (ctx.timeout.getD DEFAULT_TIMEOUT)) := by
  have hrun : runRacedEngine ctx.app (ctx.timeout.getD DEFAULT_TIMEOUT) .timedOut =
      .error (.executionTimeout (ctx.timeout.getD DEFAULT_TIMEOUT)) := by
    simp [runRacedEngine, classifyFailure_timeoutRaceMessage]
  rcases h with h | h
  · simp only [executeScript, h, if_true]
    exact hrun
  · cases hsv : ctx.skipValidation with
    | true => simp only [executeScript, hsv, if_true]; exact hrun
    | false =>
      simp only [executeScript, hsv, Bool.false_eq_true, if_false, h]
      exact hrun

/-- C6 witness: with `timeout := 5` on a valid script, the timeout error
carries exactly 5. -/
theorem executeScript_timeout_carries_configured_witness :
    validateScript "tell application \"Reminders\"\nend tell" "Reminders" = .ok () ∧
    executeScript
      { script := "tell application \"Reminders\"\nend tell", app := "Reminders",
        operation := "op", timeout := some 5 } .timedOut =
      .error (.executionTimeout 5) :=
  ⟨by decide,
   executeScript_timeout_carries_configured _ (Or.inr (by decide))⟩

/-- C7: escaping backslash before the quote delimiter makes the composition
a single per-character pass (neither substitution rewrites escapes inserted
by the other), and the scenario-E string maps exactly as specified. -/
theorem escapeAppleScriptString_order :
    (∀ s : String, escapeAppleScriptString s = ⟨s.data.flatMap specEscapeChar⟩) ∧
    escapeAppleScriptString "Task with \"quotes\" and \\backslash" =
      "Task with \\\"quotes\\\" and \\\\backslash" :=
  ⟨escape_charwise, by decide⟩

/-- C8 counterexample: the Notes create-note generator escapes the body with
`escapeAppleScriptString`, which leaves a literal newline unchanged — the
generated script contains the raw newline and not the two-character
sequence backslash-n. -/
theorem notes_newline_unescaped_counterexample :
    escapeAppleScriptString "a\nb" = "a\nb" ∧
    strIncludes (generateCreateNoteScript { title := "t", body := "a\nb", folder := "f" })
      "a\nb" = true ∧
    strIncludes (generateCreateNoteScript { title := "t", body := "a\nb", folder := "f" })
      "a\\nb" = false :=
  ⟨by decide, by decide, by decide⟩

/-- C8 (amended): the escaping the Notes generator applies to `params.body`
is `escapeAppleScriptString`, a per-character pass that maps backslash and
quote but carries a literal newline through unchanged; the separate helper
`sanitizeForAppleScript` (unused by the generators) is the function that
maps each newline to the two characters backslash-n. -/
theorem notes_escaping_newline_behavior :
    (∀ s : String, escapeAppleScriptString s = ⟨s.data.flatMap specEscapeChar⟩) ∧
    specEscapeChar '\n' = ['\n'] ∧
    (∀ s : String, sanitizeForAppleScript s = ⟨s.data.flatMap specSanitizeChar⟩) ∧
    specSanitizeChar '\n' = ['\\', 'n'] ∧
    strIncludes (generateCreateNoteScript { title := "t", body := "a\nb", folder := "f" })
      ("<div>" ++ escapeAppleScriptString "a\nb" ++ "</div>") = true :=
  ⟨escape_charwise, by decide, sanitize_charwise, by decide, by decide⟩

/-- C9: the probe script of `isAppRunning` opens "System Events", which is
outside ALLOWED_APPS (so `validateScript` never accepts it) and is itself a
member of FORBIDDEN_PATTERNS; `isAppRunning` therefore runs with
`skipValidation` set, the engine is consulted despite the validator's
rejection, and every engine outcome yields a boolean — failures map to
`false` rather than propagating. -/
theorem isAppRunning_bypasses_validation (appName out msg : String) :
    strIncludes (isAppRunningScript appName) "tell application \"System Events\"" = true ∧
    isAllowedApp "System Events" = false ∧
    "System Events" ∈ FORBIDDEN_PATTERNS ∧
    validateScript (isAppRunningScript appName) "System Events" ≠ .ok () ∧
    isAppRunning appName (.success out) = (jsTrim out == "true") ∧
    isAppRunning appName (.failure msg) = false ∧
    isAppRunning appName .timedOut = false := by
  refine ⟨?_, by decide, by decide, ?_, rfl, rfl, rfl⟩
  · rw [isAppRunningScript_eq]
    simp only [strIncludes, List.append_assoc]
    exact inclAux_append_right _ _ _ (by decide)
  · intro hok
    have hA := validateScript_ok_allowed _ _ hok
    exact absurd hA (by decide)

/-- C10: decoding after encoding is the identity on all four priority
levels — the string-to-numeric map is a section of the numeric-to-string
threshold decoding. -/
theorem priority_roundtrip :
    ∀ p : Priority, appleScriptToPriority (priorityToAppleScript p) = p := by
  intro p
  cases p <;> rfl

end MacOSMCP
